import Mathlib

/-!
Verification of the LLM structured-output recovery and validation pipeline
of `src/app/classification.py` (ZopilotGPU).

Python strings are modelled as `List Char`; JSON values (the result of
`json.loads`) as the mutual inductive type `Json` below, with JSON numbers
as rationals and Python dicts as insertion-ordered sequences of bindings
with unique keys (`getKey` reads the first binding, `setKey` overwrites it
in place or appends, exactly like Python dict assignment).
-/

namespace Zopilot

mutual
/-- JSON values as produced by `json.loads`.  Python `True/False` map to
`bool`, `None` to `null`, `int`/finite `float` to `num` (a rational),
and NaN — which `json.loads` accepts via its default
`parse_constant` for the `NaN` literal — maps to `nan`.  The `Infinity`
literals Python likewise accepts compare like ordinary out-of-range
numbers in every code path treated here (they are clamped to the
endpoints) and stay outside the model. -/
inductive Json where
  | null : Json
  | bool (b : Bool) : Json
  | num (q : ℚ) : Json
  | nan : Json
  | str (s : String) : Json
  | arr (l : JsonList) : Json
  | obj (l : JsonObj) : Json
  deriving DecidableEq, Repr

/-- A JSON array payload. -/
inductive JsonList where
  | nil : JsonList
  | cons (hd : Json) (tl : JsonList) : JsonList
  deriving DecidableEq, Repr

/-- A JSON object payload: a Python dict as an insertion-ordered sequence
of key/value bindings. -/
inductive JsonObj where
  | nil : JsonObj
  | cons (k : String) (v : Json) (tl : JsonObj) : JsonObj
  deriving DecidableEq, Repr
end

/-- Build a `JsonObj` from a list of bindings (literal convenience). -/
def JsonObj.ofList : List (String × Json) → JsonObj
  | [] => .nil
  | (k, v) :: rest => .cons k v (JsonObj.ofList rest)

/-- Python `d[k]` (and the `k in d` presence test via `Option.isSome`):
value of the first binding of `k`. -/
def getKey (d : JsonObj) (k : String) : Option Json :=
  match d with
  | .nil => none
  | .cons k' v rest => if k' = k then some v else getKey rest k

/-- Python `d[k] = v`: overwrite the first binding in place, else append. -/
def setKey (d : JsonObj) (k : String) (v : Json) : JsonObj :=
  match d with
  | .nil => .cons k v .nil
  | .cons k' v' rest =>
      if k' = k then .cons k' v rest else .cons k' v' (setKey rest k v)

theorem getKey_setKey_self (d : JsonObj) (k : String) (v : Json) :
    getKey (setKey d k v) k = some v := by
  match d with
  | .nil => simp [getKey, setKey]
  | .cons k' v' rest =>
      by_cases h : k' = k <;>
        simp [getKey, setKey, h, getKey_setKey_self rest k v]

theorem getKey_setKey_ne (d : JsonObj) (k k' : String) (v : Json)
    (h : k ≠ k') : getKey (setKey d k v) k' = getKey d k' := by
  match d with
  | .nil => simp [getKey, setKey, h]
  | .cons k₀ v₀ rest =>
      by_cases h0 : k₀ = k
      · subst h0
        simp [getKey, setKey, h, Ne.symm h]
      · by_cases h1 : k₀ = k' <;>
          simp [getKey, setKey, h0, h1, Ne.symm h,
            getKey_setKey_ne rest k k' v h]

/-- Python `x == 0` on a JSON value: `0 == 0`, `0.0 == 0` and
`False == 0` are all true in Python. -/
def pyEqZero : Json → Bool
  | .num q => q == 0
  | .bool b => !b
  | _ => false

/-- Python `isinstance(x, (int, float))`: booleans are `int`s in
Python, and NaN is a `float`. -/
def pyIsNumber : Json → Bool
  | .num _ => true
  | .bool _ => true
  | .nan => true
  | _ => false

/-- Numeric value used by Python comparisons (`True` counts as 1,
`False` as 0).  Only meaningful for finite numbers: NaN supports no
order comparison, and the code paths below never read a rational out of
it. -/
def pyToRat : Json → ℚ
  | .num q => q
  | .bool b => if b then 1 else 0
  | _ => 0

/-- Python `0 <= x <= 100` on a JSON value, with float semantics: every
comparison against NaN is false, and the booleans count as 0/1. -/
def pyInRange0To100 : Json → Bool
  | .num q => decide (0 ≤ q) && decide (q ≤ 100)
  | .bool _ => true
  | .nan => false
  | _ => false

/-! ## Character-level string utilities (Python semantics) -/

/-- Python whitespace, as matched by `str.strip()` and the regex class
`\s` on ASCII text: space, tab, newline, carriage return, vertical tab,
form feed. -/
def pySpace (c : Char) : Bool :=
  c = ' ' || c = '\t' || c = '\n' || c = '\r' || c = '\x0b' || c = '\x0c'

/-- Python `str.strip()`. -/
def pyStrip (s : List Char) : List Char :=
  ((s.dropWhile pySpace).reverse.dropWhile pySpace).reverse

/-- Python `str.startswith(c)` for a single character. -/
def startsWithChar (c : Char) : List Char → Bool
  | [] => false
  | a :: _ => a = c

/-- Python `str.endswith(c)` for a single character. -/
def endsWithChar (c : Char) (s : List Char) : Bool :=
  startsWithChar c s.reverse

/-- Python `str.startswith('\x7b\x7b')` (a double opening brace). -/
def startsWithTwoBraces : List Char → Bool
  | a :: b :: _ => a = '{' && b = '{'
  | _ => false

/-! ## JSON Repair Engine: `_repair_malformed_json` (lines 682-776) -/

mutual
/-- `re.sub(r',(\s*[}\]])', r'\1', s)`: delete every comma that is
followed (after optional whitespace) by a closing `\x7d` or `]`, keeping
the whitespace and the closer.  Scans left to right, non-overlapping,
resuming after each match, exactly like Python `re.sub`. -/
def sub1 : List Char → List Char
  | [] => []
  | c :: rest => if c = ',' then sub1Comma [] rest else c :: sub1 rest

/-- Scanning state of `sub1` right after a comma: `ws` holds (reversed)
the whitespace run seen so far.  A closer completes the match (the comma
is dropped, the whitespace kept); any other non-space character fails it
(the comma and whitespace are emitted and scanning resumes there, a new
comma starting a fresh match attempt). -/
def sub1Comma (ws : List Char) : List Char → List Char
  | [] => ',' :: ws.reverse
  | c :: rest =>
      if pySpace c then sub1Comma (c :: ws) rest
      else if c = '}' ∨ c = ']' then ws.reverse ++ c :: sub1 rest
      else if c = ',' then ',' :: ws.reverse ++ sub1Comma [] rest
      else ',' :: ws.reverse ++ c :: sub1 rest
end

mutual
/-- `re.sub(r',\s*,', ',', s)`: replace a comma, optional whitespace and
a second comma by a single comma; scanning resumes after the second comma
(non-overlapping, like Python `re.sub`). -/
def sub2 : List Char → List Char
  | [] => []
  | c :: rest => if c = ',' then sub2Comma [] rest else c :: sub2 rest

/-- Scanning state of `sub2` right after a comma: `ws` holds (reversed)
the whitespace run seen so far.  A second comma completes the match
(whitespace and second comma are dropped); any other non-space character
fails it. -/
def sub2Comma (ws : List Char) : List Char → List Char
  | [] => ',' :: ws.reverse
  | c :: rest =>
      if pySpace c then sub2Comma (c :: ws) rest
      else if c = ',' then ',' :: sub2 rest
      else ',' :: ws.reverse ++ c :: sub2 rest
end

/-- Python `s[:s.rfind(c)] + s[s.rfind(c)+1:]`: remove the last
occurrence of `c` (meaningful when `c ∈ s`). -/
def removeLastChar (c : Char) (s : List Char) : List Char :=
  (s.reverse.erase c).reverse

/-- The Issue-6 `while` loop of `_repair_malformed_json`: while there are
more `\x7d` than `\x7b`, remove the last `\x7d` — but only when its index
is positive (`if last_brace > 0`).  When the last `\x7d` sits at index 0
the Python loop would spin forever; that situation is unreachable from
`repairMalformedJson` (the string starts with `\x7b` there), and is
modelled as an exit.  The fuel (initialised to the number of `\x7d`)
never runs out before the loop condition turns false, since every
iteration removes one `\x7d`. -/
def dropExtraLoop : Nat → List Char → List Char
  | 0, s => s
  | fuel + 1, s =>
    if s.count '{' < s.count '}' then
      match s with
      | [] => []
      | a :: rest =>
          if '}' ∈ rest then
            dropExtraLoop fuel (a :: removeLastChar '}' rest)
          else s
    else s

/-- Steps of `_repair_malformed_json` up to Issue #3: strip whitespace,
add a missing leading `\x7b` (remembering whether we did, as
`needs_outer_wrapper`), add a missing trailing `\x7d`.  Returns the
`needs_outer_wrapper` flag and the partially repaired string. -/
def repairWrapped (s0 : List Char) : Bool × List Char :=
  let s1 := pyStrip s0
  let needsOuterWrapper := !(startsWithChar '{' s1)
  let s2 := if needsOuterWrapper then '{' :: '\n' :: s1 else s1
  let s3 := if !(endsWithChar '}' s2) then s2 ++ ['\n', '}'] else s2
  (needsOuterWrapper, s3)

/-- `_repair_malformed_json` (classification.py lines 682-776), with the
`stage` argument dropped (it is used only for logging).  Issue #1 is
disabled in the source.  Steps, in source order: strip whitespace; add a
missing leading `\x7b` (remembering that we did); add a missing trailing
`\x7d`; delete trailing commas before closers; collapse repeated commas;
while there are more closers than openers drop the last closer; if there
are more openers than closers, no wrapper was just added, and the string
starts with `\x7b\x7b`, drop one leading `\x7b`. -/
def repairMalformedJson (s0 : List Char) : List Char :=
  let s5 := sub2 (sub1 (repairWrapped s0).2)
  let s6 := dropExtraLoop (s5.count '}') s5
  if (repairWrapped s0).1 = false ∧ s6.count '}' < s6.count '{' ∧
      startsWithTwoBraces s6 = true
  then s6.drop 1 else s6

/-! ### Brace accounting and fixed points of the repair engine -/

theorem dropWhile_pySpace_eq_self (c : Char) (s : List Char)
    (hc : pySpace c = false) (h : startsWithChar c s = true) :
    s.dropWhile pySpace = s := by
  match s with
  | [] => simp [startsWithChar] at h
  | a :: rest =>
      simp [startsWithChar] at h
      subst h
      simp [List.dropWhile_cons, hc]

theorem pyStrip_eq_self (s : List Char)
    (h1 : startsWithChar '{' s = true) (h2 : endsWithChar '}' s = true) :
    pyStrip s = s := by
  unfold pyStrip
  rw [dropWhile_pySpace_eq_self '{' s (by decide) h1,
    dropWhile_pySpace_eq_self '}' s.reverse (by decide) h2,
    List.reverse_reverse]

theorem startsWithChar_append (c : Char) (s t : List Char)
    (h : startsWithChar c s = true) :
    startsWithChar c (s ++ t) = true := by
  match s with
  | [] => simp [startsWithChar] at h
  | a :: rest => simpa [startsWithChar] using h

theorem startsWith_step3 (s2 : List Char) (h : startsWithChar '{' s2 = true) :
    startsWithChar '{'
      (if (!(endsWithChar '}' s2)) = true then s2 ++ ['\n', '}'] else s2) =
      true := by
  cases hE : endsWithChar '}' s2
  · simpa using startsWithChar_append _ _ _ h
  · simpa using h

theorem startsWith_repairWrapped (s0 : List Char) :
    startsWithChar '{' (repairWrapped s0).2 = true := by
  have key : ∀ s1 : List Char,
      startsWithChar '{'
        (if (!(startsWithChar '{' s1)) = true
         then '{' :: '\n' :: s1 else s1) = true := by
    intro s1
    cases hB : startsWithChar '{' s1
    · simp [startsWithChar]
    · simpa using hB
  unfold repairWrapped
  exact startsWith_step3 _ (key (pyStrip s0))

theorem startsWith_sub1 (s : List Char)
    (h : startsWithChar '{' s = true) :
    startsWithChar '{' (sub1 s) = true := by
  match s with
  | [] => simp [startsWithChar] at h
  | a :: rest =>
      simp [startsWithChar] at h
      subst h
      have hne : ('{' : Char) ≠ ',' := by decide
      simp [sub1, hne, startsWithChar]

theorem startsWith_sub2 (s : List Char)
    (h : startsWithChar '{' s = true) :
    startsWithChar '{' (sub2 s) = true := by
  match s with
  | [] => simp [startsWithChar] at h
  | a :: rest =>
      simp [startsWithChar] at h
      subst h
      have hne : ('{' : Char) ≠ ',' := by decide
      simp [sub2, hne, startsWithChar]

mutual
theorem count_sub1 (c0 : Char) (hc : c0 ≠ ',') :
    ∀ s : List Char, (sub1 s).count c0 = s.count c0
  | [] => by simp [sub1]
  | c :: rest => by
      by_cases h : c = ','
      · subst h
        rw [sub1, if_pos rfl, count_sub1Comma c0 hc [] rest,
          List.count_cons_of_ne hc]
        simp
      · rw [sub1, if_neg h]
        by_cases h0 : c0 = c
        · subst h0
          rw [List.count_cons_self, List.count_cons_self,
            count_sub1 c0 hc rest]
        · rw [List.count_cons_of_ne h0, List.count_cons_of_ne h0,
            count_sub1 c0 hc rest]

theorem count_sub1Comma (c0 : Char) (hc : c0 ≠ ',') :
    ∀ ws s : List Char,
      (sub1Comma ws s).count c0 = ws.count c0 + s.count c0
  | ws, [] => by
      rw [sub1Comma, List.count_cons_of_ne hc,
        List.count_reverse]
      simp
  | ws, c :: rest => by
      by_cases hsp : pySpace c
      · rw [sub1Comma, if_pos hsp, count_sub1Comma c0 hc (c :: ws) rest]
        by_cases h0 : c0 = c
        · subst h0
          rw [List.count_cons_self, List.count_cons_self]
          omega
        · rw [List.count_cons_of_ne h0, List.count_cons_of_ne h0]
      · by_cases hcl : c = '}' ∨ c = ']'
        · rw [sub1Comma, if_neg hsp, if_pos hcl, List.count_append,
            List.count_reverse]
          by_cases h0 : c0 = c
          · subst h0
            rw [List.count_cons_self, List.count_cons_self,
              count_sub1 c0 hc rest]
          · rw [List.count_cons_of_ne h0, List.count_cons_of_ne h0,
              count_sub1 c0 hc rest]
        · by_cases hcm : c = ','
          · subst hcm
            rw [sub1Comma, if_neg hsp, if_neg hcl, if_pos rfl,
              List.count_append, List.count_cons_of_ne hc,
              List.count_reverse, count_sub1Comma c0 hc [] rest,
              List.count_cons_of_ne hc]
            simp
          · rw [sub1Comma, if_neg hsp, if_neg hcl, if_neg hcm,
              List.count_append, List.count_cons_of_ne hc,
              List.count_reverse]
            by_cases h0 : c0 = c
            · subst h0
              rw [List.count_cons_self, List.count_cons_self,
                count_sub1 c0 hc rest]
            · rw [List.count_cons_of_ne h0, List.count_cons_of_ne h0,
                count_sub1 c0 hc rest]
end

mutual
theorem count_sub2 (c0 : Char) (hc : c0 ≠ ',') (hsp0 : pySpace c0 = false) :
    ∀ s : List Char, (sub2 s).count c0 = s.count c0
  | [] => by simp [sub2]
  | c :: rest => by
      by_cases h : c = ','
      · subst h
        rw [sub2, if_pos rfl,
          count_sub2Comma c0 hc hsp0 [] (by simp) rest,
          List.count_cons_of_ne hc]
        simp
      · rw [sub2, if_neg h]
        by_cases h0 : c0 = c
        · subst h0
          rw [List.count_cons_self, List.count_cons_self,
            count_sub2 c0 hc hsp0 rest]
        · rw [List.count_cons_of_ne h0, List.count_cons_of_ne h0,
            count_sub2 c0 hc hsp0 rest]

theorem count_sub2Comma (c0 : Char) (hc : c0 ≠ ',')
    (hsp0 : pySpace c0 = false) :
    ∀ ws : List Char, (∀ x ∈ ws, pySpace x = true) →
      ∀ s : List Char,
        (sub2Comma ws s).count c0 = ws.count c0 + s.count c0
  | ws, hws, [] => by
      rw [sub2Comma, List.count_cons_of_ne hc,
        List.count_reverse]
      simp
  | ws, hws, c :: rest => by
      by_cases hsp : pySpace c
      · rw [sub2Comma, if_pos hsp,
          count_sub2Comma c0 hc hsp0 (c :: ws)
            (by
              intro x hx
              rcases List.mem_cons.mp hx with hx | hx
              · subst hx
                exact hsp
              · exact hws x hx) rest]
        have h0 : c0 ≠ c := by
          intro heq; subst heq; rw [hsp] at hsp0; cases hsp0
        rw [List.count_cons_of_ne h0, List.count_cons_of_ne h0]
      · by_cases hcm : c = ','
        · subst hcm
          rw [sub2Comma, if_neg hsp, if_pos rfl,
            List.count_cons_of_ne hc, count_sub2 c0 hc hsp0 rest,
            List.count_cons_of_ne hc]
          have hz : ws.count c0 = 0 := by
            rw [List.count_eq_zero]
            intro hmem
            rw [hws c0 hmem] at hsp0
            cases hsp0
          omega
        · rw [sub2Comma, if_neg hsp, if_neg hcm,
            List.count_append, List.count_cons_of_ne hc,
            List.count_reverse]
          by_cases h0 : c0 = c
          · subst h0
            rw [List.count_cons_self, List.count_cons_self,
              count_sub2 c0 hc hsp0 rest]
          · rw [List.count_cons_of_ne h0, List.count_cons_of_ne h0,
              count_sub2 c0 hc hsp0 rest]
end

theorem count_removeLastChar_self (c : Char) (s : List Char) :
    (removeLastChar c s).count c = s.count c - 1 := by
  unfold removeLastChar
  rw [List.count_reverse, List.count_erase_self, List.count_reverse]

theorem count_removeLastChar_ne (c c' : Char) (h : c' ≠ c) (s : List Char) :
    (removeLastChar c s).count c' = s.count c' := by
  unfold removeLastChar
  rw [List.count_reverse, List.count_erase_of_ne h, List.count_reverse]

theorem dropExtraLoop_eq_self (fuel : Nat) (s : List Char)
    (h : ¬ s.count '{' < s.count '}') : dropExtraLoop fuel s = s := by
  cases fuel <;> simp [dropExtraLoop, h]

theorem dropExtraLoop_close_le_open (fuel : Nat) :
    ∀ s : List Char, startsWithChar '{' s = true →
      s.count '}' ≤ s.count '{' + fuel →
      (dropExtraLoop fuel s).count '}' ≤ (dropExtraLoop fuel s).count '{' := by
  induction fuel with
  | zero =>
      intro s _ hb
      simpa [dropExtraLoop] using hb
  | succ fuel ih =>
      intro s hs hb
      by_cases hlt : s.count '{' < s.count '}'
      · match s, hs with
        | a :: rest, hs =>
            simp [startsWithChar] at hs
            subst hs
            have hcc : ('{' :: rest).count '}' = rest.count '}' :=
              List.count_cons_of_ne (by decide) _
            have hco : ('{' :: rest).count '{' = rest.count '{' + 1 :=
              List.count_cons_self _ _
            have hmem : '}' ∈ rest := by
              refine List.count_pos_iff.mp ?_
              omega
            simp only [dropExtraLoop]
            rw [if_pos hlt, if_pos hmem]
            apply ih
            · simp [startsWithChar]
            · have e1 : ('{' :: removeLastChar '}' rest).count '}' =
                  rest.count '}' - 1 := by
                rw [List.count_cons_of_ne (by decide),
                  count_removeLastChar_self]
              have e2 : ('{' :: removeLastChar '}' rest).count '{' =
                  rest.count '{' + 1 := by
                rw [List.count_cons_self,
                  count_removeLastChar_ne _ _ (by decide)]
              omega
      · simp only [dropExtraLoop]
        rw [if_neg hlt]
        omega

/-- The string `repairMalformedJson` feeds into the Issue-6 loop. -/
def repairStep6 (s0 : List Char) : List Char :=
  sub2 (sub1 (repairWrapped s0).2)

theorem count_repairStep6 (s0 : List Char) (c0 : Char)
    (hc : c0 ≠ ',') (hsp0 : pySpace c0 = false) :
    (repairStep6 s0).count c0 = ((repairWrapped s0).2).count c0 := by
  unfold repairStep6
  rw [count_sub2 c0 hc hsp0, count_sub1 c0 hc]

theorem startsWith_repairStep6 (s0 : List Char) :
    startsWithChar '{' (repairStep6 s0) = true :=
  startsWith_sub2 _ (startsWith_sub1 _ (startsWith_repairWrapped s0))

/-- A string on which every step of `_repair_malformed_json` is a no-op:
it starts with `\x7b`, ends with `\x7d`, its braces balance, and it
contains neither a comma-whitespace-closer nor a comma-whitespace-comma
pattern (the two `re.sub` passes leave it unchanged). -/
def CleanRepaired (s : List Char) : Prop :=
  startsWithChar '{' s = true ∧ endsWithChar '}' s = true ∧
    s.count '{' = s.count '}' ∧ sub1 s = s ∧ sub2 s = s

instance : DecidablePred CleanRepaired := fun s => by
  unfold CleanRepaired
  infer_instance

theorem repairWrapped_eq_of_clean (s : List Char) (h : CleanRepaired s) :
    repairWrapped s = (false, s) := by
  obtain ⟨h1, h2, -, -, -⟩ := h
  unfold repairWrapped
  rw [pyStrip_eq_self s h1 h2]
  simp only [h1, h2, Bool.not_true, Bool.false_eq_true, if_false]

theorem repair_eq_self_of_clean (s : List Char) (h : CleanRepaired s) :
    repairMalformedJson s = s := by
  have hw : repairWrapped s = (false, s) := repairWrapped_eq_of_clean s h
  obtain ⟨h1, h2, h3, h4, h5⟩ := h
  unfold repairMalformedJson
  rw [hw]
  simp only [h4, h5]
  rw [dropExtraLoop_eq_self _ _ (by omega)]
  rw [if_neg]
  intro hcon
  exact absurd hcon.2.1 (by omega)

theorem startsWithTwoBraces_eq (s : List Char)
    (h : startsWithTwoBraces s = true) : ∃ u, s = '{' :: '{' :: u := by
  match s with
  | [] => simp [startsWithTwoBraces] at h
  | [a] => simp [startsWithTwoBraces] at h
  | a :: b :: u =>
      simp [startsWithTwoBraces] at h
      obtain ⟨ha, hb⟩ := h
      subst ha
      subst hb
      exact ⟨u, rfl⟩

/-- C5: counterexample.  The JSON Repair Engine is not idempotent: on the
input `\x7b"a": 1, ,\x7d` the first repair produces `\x7b"a": 1, \x7d`
(the double comma is collapsed after the trailing-comma pass already ran
over that region), and a second repair still removes the remaining
trailing comma, yielding `\x7b"a": 1 \x7d`. -/
theorem repair_not_idempotent :
    repairMalformedJson (repairMalformedJson ("\x7b\"a\": 1, ,\x7d".toList))
      ≠ repairMalformedJson ("\x7b\"a\": 1, ,\x7d".toList) := by decide

/-- C5 (amended): the repair engine is idempotent on every input whose
repaired output is clean — starts with `\x7b`, ends with `\x7d`, has
balanced brace counts, and is left unchanged by both comma passes.  Every
such repaired string is a fixed point of the repair. -/
theorem repair_idempotent_on_clean (s : List Char)
    (h : CleanRepaired (repairMalformedJson s)) :
    repairMalformedJson (repairMalformedJson s) = repairMalformedJson s :=
  repair_eq_self_of_clean (repairMalformedJson s) h

/-- Witness for C5 (amended) at the concrete input `"x"`, whose repair
`\x7b\nx\n\x7d` is clean. -/
theorem repair_idempotent_on_clean_witness :
    CleanRepaired (repairMalformedJson ("x".toList)) ∧
      repairMalformedJson (repairMalformedJson ("x".toList)) =
        repairMalformedJson ("x".toList) :=
  ⟨by decide, repair_idempotent_on_clean ("x".toList) (by decide)⟩

/-- C6: counterexample.  After repairing `\x7ba\x7b` (more openers than
closers, not starting with a double brace) the output `\x7ba\x7b\n\x7d`
still has two opening braces against one closing brace: the post-repair
brace-balance invariant fails. -/
theorem repair_brace_balance_counterexample :
    (repairMalformedJson ("\x7ba\x7b".toList)).count '{' ≠
      (repairMalformedJson ("\x7ba\x7b".toList)).count '}' := by decide

/-- C6 (amended): for every input, the repaired output never has more
closing than opening braces (the Issue-6 loop removes closers down to
balance); equality can fail when the input has excess opening braces. -/
theorem repair_close_le_open (s0 : List Char) :
    (repairMalformedJson s0).count '}' ≤ (repairMalformedJson s0).count '{' := by
  have h5 : startsWithChar '{' (repairStep6 s0) = true :=
    startsWith_repairStep6 s0
  have h6 := dropExtraLoop_close_le_open ((repairStep6 s0).count '}')
    (repairStep6 s0) h5 (by omega)
  have hrs : sub2 (sub1 (repairWrapped s0).2) = repairStep6 s0 := rfl
  unfold repairMalformedJson
  simp only [hrs]
  set t := dropExtraLoop ((repairStep6 s0).count '}') (repairStep6 s0)
    with ht
  by_cases hc : (repairWrapped s0).1 = false ∧ t.count '}' < t.count '{' ∧
      startsWithTwoBraces t = true
  · rw [if_pos hc]
    obtain ⟨-, hlt, h2b⟩ := hc
    obtain ⟨u, hu⟩ := startsWithTwoBraces_eq _ h2b
    rw [hu] at hlt ⊢
    have c1 : (('{' :: '{' :: u).drop 1) = '{' :: u := rfl
    rw [c1]
    have e1 : ('{' :: '{' :: u).count '}' = u.count '}' := by
      rw [List.count_cons_of_ne (by decide), List.count_cons_of_ne (by decide)]
    have e2 : ('{' :: '{' :: u).count '{' = u.count '{' + 2 := by
      rw [List.count_cons_self, List.count_cons_self]
    have e3 : ('{' :: u).count '}' = u.count '}' :=
      List.count_cons_of_ne (by decide) _
    have e4 : ('{' :: u).count '{' = u.count '{' + 1 :=
      List.count_cons_self _ _
    omega
  · rw [if_neg hc]
    exact h6

/-! ## `json.loads`: a parser for the JSON accepted by Python's decoder

The standard JSON grammar (objects, arrays, strings with escapes,
numbers, `true`/`false`/`null`), with numbers read as rationals and
duplicate object keys resolved later-wins, as Python dicts do.  The
non-standard `NaN`/`Infinity` literals Python additionally accepts are
outside the rational number model and not produced by any input
considered here. -/

/-- JSON insignificant whitespace (RFC 8259, as used by Python's
decoder): space, tab, newline, carriage return. -/
def isJsonWs (c : Char) : Bool :=
  c = ' ' || c = '\t' || c = '\n' || c = '\r'

def skipWs (s : List Char) : List Char := s.dropWhile isJsonWs

def hexVal (c : Char) : Option Nat :=
  if '0' ≤ c ∧ c ≤ '9' then some (c.toNat - 48)
  else if 'a' ≤ c ∧ c ≤ 'f' then some (c.toNat - 87)
  else if 'A' ≤ c ∧ c ≤ 'F' then some (c.toNat - 55)
  else none

/-- Body of a JSON string literal, after the opening quote: returns the
decoded characters and the remaining input after the closing quote.
Escapes for quote, backslash, slash, backspace, form feed, newline,
carriage return, tab and hex code points are decoded; unescaped control
characters are rejected (Python's strict default). -/
def parseStringBody : List Char → Option (List Char × List Char)
  | [] => none
  | '"' :: rest => some ([], rest)
  | '\\' :: e :: rest =>
      let plain : Char → Option (List Char × List Char) := fun d =>
        match parseStringBody rest with
        | some (cs, r) => some (d :: cs, r)
        | none => none
      if e = '"' then plain '"'
      else if e = '\\' then plain '\\'
      else if e = '/' then plain '/'
      else if e = 'b' then plain '\x08'
      else if e = 'f' then plain '\x0c'
      else if e = 'n' then plain '\n'
      else if e = 'r' then plain '\r'
      else if e = 't' then plain '\t'
      else if e = 'u' then
        match rest with
        | h1 :: h2 :: h3 :: h4 :: rest2 =>
            match hexVal h1, hexVal h2, hexVal h3, hexVal h4 with
            | some a, some b, some c, some d =>
                match parseStringBody rest2 with
                | some (cs, r) =>
                    some (Char.ofNat (((a * 16 + b) * 16 + c) * 16 + d) :: cs, r)
                | none => none
            | _, _, _, _ => none
        | _ => none
      else none
  | c :: rest =>
      if c.toNat < 32 then none
      else
        match parseStringBody rest with
        | some (cs, r) => some (c :: cs, r)
        | none => none

def digitsToNat (ds : List Char) : Nat :=
  ds.foldl (fun n c => 10 * n + (c.toNat - 48)) 0

/-- A JSON number: an optional minus sign, an integer part with no
leading zeros, an optional fraction, an optional exponent.  As in
Python's decoder, a number with neither fraction nor exponent takes the
integer path; otherwise the value is assembled from its parts (read here
as an exact rational rather than a binary float). -/
def parseNumber (s : List Char) : Option (ℚ × List Char) :=
  let signed : Bool × List Char :=
    match s with
    | '-' :: r => (true, r)
    | _ => (false, s)
  let neg := signed.1
  let s1 := signed.2
  let ipart : Option (Nat × List Char) :=
    match s1 with
    | '0' :: r => some (0, r)
    | c :: _ =>
        if c.isDigit then
          some (digitsToNat (s1.takeWhile Char.isDigit),
            s1.dropWhile Char.isDigit)
        else none
    | [] => none
  match ipart with
  | none => none
  | some (ip, s2) =>
      let fpart : Option (ℚ) × List Char :=
        match s2 with
        | '.' :: r =>
            let ds := r.takeWhile Char.isDigit
            if ds.isEmpty then (none, s2)
            else (some ((digitsToNat ds : ℚ) / ((10 : ℚ) ^ ds.length)),
              r.dropWhile Char.isDigit)
        | _ => (none, s2)
      let s3 := fpart.2
      let epart : Option ℤ × List Char :=
        match s3 with
        | e :: r =>
            if e = 'e' ∨ e = 'E' then
              let esigned : Bool × List Char :=
                match r with
                | '-' :: r2 => (true, r2)
                | '+' :: r2 => (false, r2)
                | _ => (false, r)
              let ds := esigned.2.takeWhile Char.isDigit
              if ds.isEmpty then (none, s3)
              else (some (if esigned.1 then -(digitsToNat ds : ℤ)
                     else (digitsToNat ds : ℤ)),
                esigned.2.dropWhile Char.isDigit)
            else (none, s3)
        | [] => (none, s3)
      let q : ℚ :=
        match fpart.1, epart.1 with
        | none, none => (((if neg then -(ip : ℤ) else (ip : ℤ)) : ℤ) : ℚ)
        | fo, eo =>
            let mag : ℚ :=
              ((ip : ℚ) + (fo.getD 0)) * (10 : ℚ) ^ (eo.getD 0)
            if neg then -mag else mag
      some (q, epart.2)

def toJsonList : List Json → JsonList
  | [] => .nil
  | x :: r => .cons x (toJsonList r)

mutual
/-- One JSON value (leading whitespace skipped), returning the value and
the remaining input.  The fuel bounds recursion depth; `jsonLoads`
supplies enough for any input. -/
def parseValue : Nat → List Char → Option (Json × List Char)
  | 0, _ => none
  | fuel + 1, s =>
      match skipWs s with
      | [] => none
      | c :: rest =>
          if c = '{' then parseObjBody fuel JsonObj.nil true rest
          else if c = '[' then parseArrBody fuel [] true rest
          else if c = '"' then
            match parseStringBody rest with
            | some (cs, r) => some (Json.str (String.mk cs), r)
            | none => none
          else if c = 't' then
            if "rue".toList.isPrefixOf rest then
              some (Json.bool true, rest.drop 3)
            else none
          else if c = 'f' then
            if "alse".toList.isPrefixOf rest then
              some (Json.bool false, rest.drop 4)
            else none
          else if c = 'n' then
            if "ull".toList.isPrefixOf rest then
              some (Json.null, rest.drop 3)
            else none
          else if c = 'N' then
            if "aN".toList.isPrefixOf rest then
              some (Json.nan, rest.drop 2)
            else none
          else if c = '-' ∨ c.isDigit then
            match parseNumber (c :: rest) with
            | some (q, r) => some (Json.num q, r)
            | none => none
          else none

/-- Members of a JSON object after the opening brace (or after a comma,
with `first = false`): Python dict semantics, later duplicate keys
overwrite earlier ones. -/
def parseObjBody : Nat → JsonObj → Bool → List Char → Option (Json × List Char)
  | 0, _, _, _ => none
  | fuel + 1, acc, first, s =>
      match skipWs s with
      | [] => none
      | c :: rest =>
          if c = '}' ∧ first then some (Json.obj acc, rest)
          else if c = '"' then
            match parseStringBody rest with
            | some (ks, r1) =>
                match skipWs r1 with
                | ':' :: r2 =>
                    match parseValue fuel r2 with
                    | some (v, r3) =>
                        match skipWs r3 with
                        | ',' :: r4 =>
                            parseObjBody fuel (setKey acc (String.mk ks) v)
                              false r4
                        | '}' :: r4 =>
                            some (Json.obj (setKey acc (String.mk ks) v), r4)
                        | _ => none
                    | none => none
                | _ => none
            | none => none
          else none

/-- Elements of a JSON array after the opening bracket (or after a
comma, with `first = false`). -/
def parseArrBody : Nat → List Json → Bool → List Char → Option (Json × List Char)
  | 0, _, _, _ => none
  | fuel + 1, acc, first, s =>
      match skipWs s with
      | [] => none
      | c :: rest =>
          if c = ']' ∧ first then
            some (Json.arr (toJsonList acc.reverse), rest)
          else
            match parseValue fuel (c :: rest) with
            | some (v, r1) =>
                match skipWs r1 with
                | ',' :: r2 => parseArrBody fuel (v :: acc) false r2
                | ']' :: r2 =>
                    some (Json.arr (toJsonList (v :: acc).reverse), r2)
                | _ => none
            | none => none
end

/-- Python `json.loads`: parse one JSON value and require only
whitespace to remain.  The fuel `2·length + 4` exceeds the recursion
depth reachable on any input, since at least one input character is
consumed for every two levels of recursion. -/
def jsonLoads (s : List Char) : Option Json :=
  match parseValue (2 * s.length + 4) s with
  | some (v, rest) => if (skipWs rest).isEmpty then some v else none
  | none => none

/-! ## Response Normalizer: `_parse_classification_response` (779-880) -/

/-- One pass of Python `s.replace(pat, '')` for a non-empty pattern
`p :: ps`: delete every non-overlapping occurrence, scanning left to
right.  The fuel (one per character step) cannot run out before the end
of the input. -/
def deleteSubF (p : Char) (ps : List Char) : Nat → List Char → List Char
  | 0, s => s
  | _, [] => []
  | fuel + 1, a :: rest =>
      if (p :: ps).isPrefixOf (a :: rest) then
        deleteSubF p ps fuel (rest.drop ps.length)
      else a :: deleteSubF p ps fuel rest

/-- Python `s.replace(pat, '')` (empty pattern returns `s` unchanged;
all patterns used by the normalizer are non-empty). -/
def pyReplaceEmpty (pat : List Char) (s : List Char) : List Char :=
  match pat with
  | [] => s
  | p :: ps => deleteSubF p ps (s.length + 1) s

theorem deleteSubF_eq_self (p : Char) (ps : List Char) :
    ∀ (fuel : Nat) (s : List Char), p ∉ s → deleteSubF p ps fuel s = s := by
  intro fuel
  induction fuel with
  | zero =>
      intro s _
      cases s <;> rfl
  | succ fuel ih =>
      intro s hp
      match s with
      | [] => rfl
      | a :: rest =>
          have hne : ¬ (p :: ps).isPrefixOf (a :: rest) = true := by
            intro hpre
            rw [List.isPrefixOf_cons₂] at hpre
            have : p = a := by
              have := (Bool.and_eq_true _ _).mp hpre
              exact beq_iff_eq.mp this.1
            exact hp (this ▸ List.mem_cons_self a rest)
          rw [deleteSubF, if_neg hne,
            ih rest (fun hmem => hp (List.mem_cons_of_mem a hmem))]

/-- Python substring containment: `pat in s`. -/
def containsSub (pat : List Char) : List Char → Bool
  | [] => pat.isEmpty
  | a :: rest => pat.isPrefixOf (a :: rest) || containsSub pat rest

def lowerList (s : List Char) : List Char := s.map Char.toLower

/-- The fixed preamble phrases scanned for (classification.py 801-815). -/
def preamblePatterns : List String :=
  ["Based on the provided", "Based on the document", "Based on this",
   "Here\x27s the", "Here is the", "The following is", "Below is the",
   "I\x27ll provide", "Let me provide", "Sure, here", "Certainly",
   "Looking at the document", "From the document"]

/-- `pattern.lower() in json_str[:200].lower()` for any pattern of the
fixed list. -/
def preambleFound (s : List Char) : Bool :=
  preamblePatterns.any fun pat =>
    containsSub (lowerList pat.toList) (lowerList (s.take 200))

/-- Python `s.rfind(c)`, as an `Option`: index of the last occurrence. -/
def lastIdxOf (c : Char) (s : List Char) : Option Nat :=
  match s.reverse.findIdx? (fun a => a = c) with
  | some k => some (s.length - 1 - k)
  | none => none

/-- The `ValueError` kinds `_parse_classification_response` raises;
`classify_stage2` distinguishes them by substring-matching the message
(`"No JSON object found" in str(parse_error)`), which holds exactly for
the `noJsonFound` kind. -/
inductive ParseError where
  | noJsonFound (stage : Nat)
  | tooShort (length : Nat)
  | invalidJson (stage : Nat)
  deriving DecidableEq, Repr

/-- Python `"No JSON object found" in str(parse_error)`. -/
def errMsgHasNoJsonFound : ParseError → Bool
  | .noJsonFound _ => true
  | _ => false

/-- `[^\x7b\x7d]*` then a closing `\x7d`: the inner segment of the
fallback regex, returning the matched characters (closer included) and
the rest. -/
def reBalInner : List Char → Option (List Char × List Char)
  | [] => none
  | c :: rest =>
      if c = '}' then some ([c], rest)
      else if c = '{' then none
      else
        match reBalInner rest with
        | some (seg, r) => some (c :: seg, r)
        | none => none

/-- Continuation of a fallback-regex match after the opening `\x7b`:
bracket-free runs and one-level nested pairs, ending at the first
outer-level `\x7d` (the regex cannot extend past it). -/
def reBalOuter : Nat → List Char → Option (List Char × List Char)
  | 0, _ => none
  | _, [] => none
  | fuel + 1, c :: rest =>
      if c = '}' then some ([c], rest)
      else if c = '{' then
        match reBalInner rest with
        | some (seg, r2) =>
            match reBalOuter fuel r2 with
            | some (seg2, r3) => some (c :: seg ++ seg2, r3)
            | none => none
        | none => none
      else
        match reBalOuter fuel rest with
        | some (seg, r2) => some (c :: seg, r2)
        | none => none

/-- The last-resort `re.findall` of `_parse_classification_response`
(line 868), with its one-level balanced-brace pattern: all
non-overlapping matches, scanning left to right. -/
def reFindAllBal : Nat → List Char → List (List Char)
  | 0, _ => []
  | _, [] => []
  | fuel + 1, c :: rest =>
      if c = '{' then
        match reBalOuter fuel rest with
        | some (seg, r2) => ('{' :: seg) :: reFindAllBal fuel r2
        | none => reFindAllBal fuel rest
      else reFindAllBal fuel rest

def largestGo (cur : List Char) : List (List Char) → List Char
  | [] => cur
  | y :: r => if cur.length < y.length then largestGo y r else largestGo cur r

/-- Python `max(matches, key=len)`: the first element of maximal length. -/
def largestByLen : List (List Char) → Option (List Char)
  | [] => none
  | x :: rest => some (largestGo x rest)

/-- `_parse_classification_response` (classification.py lines 779-880):
remove markdown code fences, strip, drop conversational preamble before
the first `\x7b`, slice from the first `\x7b` to the last `\x7d`, reject
stage-2 spans under 50 characters, repair, parse; on a `json.loads`
failure, run the balanced-brace regex fallback over the raw response
(largest match, repaired) once more. -/
def parseClassificationResponse (response : List Char) (stage : Nat) :
    Except ParseError Json :=
  let j1 := pyReplaceEmpty "```json\n".toList response
  let j2 := pyReplaceEmpty "```json".toList j1
  let j3 := pyReplaceEmpty "```\n".toList j2
  let j4 := pyStrip (pyReplaceEmpty "```".toList j3)
  let j5 :=
    if preambleFound j4 then
      match j4.findIdx? (fun c => c = '{') with
      | some k => if 0 < k then j4.drop k else j4
      | none => j4
    else j4
  match j5.findIdx? (fun c => c = '{'), lastIdxOf '}' j5 with
  | some i, some j =>
      let span := (j5.take (j + 1)).drop i
      if span.length < 50 ∧ stage = 2 then .error (.tooShort span.length)
      else
        match jsonLoads (repairMalformedJson span) with
        | some v => .ok v
        | none =>
            match largestByLen (reFindAllBal (response.length + 1) response) with
            | some m =>
                match jsonLoads (repairMalformedJson m) with
                | some v => .ok v
                | none => .error (.invalidJson stage)
            | none => .error (.invalidJson stage)
  | _, _ => .error (.noJsonFound stage)

/-! ## Math-Validation stage: `classify_stage0_5_math` (1106-1267) -/

/-- `re.search(r'\{[\s\S]*\}', s)`: the leftmost, greedy match runs from
the first `\x7b` that precedes the last `\x7d` through that last
`\x7d`. -/
def reSearchBraces (s : List Char) : Option (List Char) :=
  match lastIdxOf '}' s with
  | none => none
  | some j =>
      match (s.take j).findIdx? (fun c => c = '{') with
      | none => none
      | some i => some ((s.take (j + 1)).drop i)

/-- The parse-and-validate tail of `classify_stage0_5_math`
(classification.py lines 1222-1251), applied to the decoded model
response: locate the outermost brace span, parse it, require a boolean
`passed`, and default the optional `errors`, `warnings`, `calculations`
and `complexity` fields.  A successful span always parses to an object
(it starts with `\x7b`), so the non-object branch is unreachable. -/
def stage0_5ParseValidate (response_text : List Char) :
    Except String JsonObj :=
  match reSearchBraces response_text with
  | none => .error "Stage 0.5 response did not contain valid JSON"
  | some span =>
      match jsonLoads span with
      | none => .error "Stage 0.5 returned invalid JSON"
      | some (Json.obj r) =>
          match getKey r "passed" with
          | some (Json.bool _) =>
              let r1 := if (getKey r "errors").isSome then r
                else setKey r "errors" (Json.arr .nil)
              let r2 := if (getKey r1 "warnings").isSome then r1
                else setKey r1 "warnings" (Json.arr .nil)
              let r3 := if (getKey r2 "calculations").isSome then r2
                else setKey r2 "calculations" (Json.obj .nil)
              let r4 := if (getKey r3 "complexity").isSome then r3
                else setKey r3 "complexity" (Json.str "moderate")
              .ok r4
          | some _ => .error "Stage 0.5 passed must be boolean"
          | none => .error "Stage 0.5 response missing passed field"
      | some _ => .error "Stage 0.5 response not a JSON object"

deriving instance DecidableEq for Except

/-! ### C7: round-trip through Normalizer and Repair Engine -/

theorem findIdx_head (c : Char) (s : List Char)
    (h : startsWithChar c s = true) :
    s.findIdx? (fun a => a = c) = some 0 := by
  match s with
  | [] => simp [startsWithChar] at h
  | a :: rest =>
      simp [startsWithChar] at h
      subst h
      simp [List.findIdx?]

theorem lastIdxOf_ends (c : Char) (s : List Char)
    (h : endsWithChar c s = true) : lastIdxOf c s = some (s.length - 1) := by
  unfold lastIdxOf
  rw [findIdx_head c s.reverse h]
  simp

theorem pyReplaceEmpty_backtick (ps s : List Char) (h : '`' ∉ s) :
    pyReplaceEmpty ('`' :: ps) s = s :=
  deleteSubF_eq_self '`' ps _ s h

/-- C7: counterexample.  The input `\x7b"a": "x```y"\x7d` is already
valid JSON, but the Response Normalizer deletes the backtick run inside
the string value (markdown-fence removal is blind to string context), so
the pipeline returns an object whose value for `"a"` is `"xy"`, not the
original `"x```y"`: semantic content is not preserved. -/
theorem normalizer_round_trip_counterexample :
    jsonLoads ("\x7b\"a\": \"x```y\"\x7d".toList) =
        some (Json.obj (JsonObj.cons "a" (Json.str "x```y") JsonObj.nil)) ∧
      parseClassificationResponse ("\x7b\"a\": \"x```y\"\x7d".toList) 1 =
        .ok (Json.obj (JsonObj.cons "a" (Json.str "xy") JsonObj.nil)) ∧
      Json.str "x```y" ≠ Json.str "xy" :=
  ⟨by decide, by decide, by decide⟩

/-- C7 (amended): a valid-JSON input passes through the Response
Normalizer and JSON Repair Engine completely unchanged — hence with keys
and values preserved — provided it contains no backticks, no preamble
phrase in its first 200 characters, starts with `\x7b` and ends with
`\x7d` with balanced brace counts and no trailing-comma or double-comma
patterns (`CleanRepaired`), and, for the Field-Mapping stage, is at
least 50 characters long. -/
theorem normalizer_round_trip_of_clean (s : List Char) (stage : Nat)
    (v : Json)
    (hload : jsonLoads s = some v)
    (hclean : CleanRepaired s)
    (hbt : '`' ∉ s)
    (hpre : preambleFound s = false)
    (hlen : 50 ≤ s.length ∨ stage ≠ 2) :
    parseClassificationResponse s stage = .ok v := by
  obtain ⟨h1, h2, h3, h4, h5⟩ := hclean
  have hlen1 : 1 ≤ s.length := by
    match s, h1 with
    | a :: rest, _ => simp
  have e1 : pyReplaceEmpty "```json\n".toList s = s := by
    rw [show ("```json\n".toList) = '`' :: "``json\n".toList by decide]
    exact pyReplaceEmpty_backtick _ s hbt
  have e2 : pyReplaceEmpty "```json".toList s = s := by
    rw [show ("```json".toList) = '`' :: "``json".toList by decide]
    exact pyReplaceEmpty_backtick _ s hbt
  have e3 : pyReplaceEmpty "```\n".toList s = s := by
    rw [show ("```\n".toList) = '`' :: "``\n".toList by decide]
    exact pyReplaceEmpty_backtick _ s hbt
  have e4 : pyReplaceEmpty "```".toList s = s := by
    rw [show ("```".toList) = '`' :: "``".toList by decide]
    exact pyReplaceEmpty_backtick _ s hbt
  have estrip : pyStrip s = s := pyStrip_eq_self s h1 h2
  unfold parseClassificationResponse
  simp only [e1, e2, e3, e4, estrip, hpre, Bool.false_eq_true, if_false,
    findIdx_head '{' s h1, lastIdxOf_ends '}' s h2]
  rw [Nat.sub_add_cancel hlen1]
  simp only [List.take_length, List.drop_zero]
  rw [if_neg (by
    intro hcon
    rcases hlen with hge | hst
    · omega
    · exact hst hcon.2)]
  rw [repair_eq_self_of_clean s ⟨h1, h2, h3, h4, h5⟩, hload]

/-- Witness for C7 (amended) at the concrete input `\x7b"a": 1\x7d`
(Action-Selection stage, no backticks, clean). -/
theorem normalizer_round_trip_witness :
    parseClassificationResponse ("\x7b\"a\": 1\x7d".toList) 1 =
      .ok (Json.obj (JsonObj.cons "a" (Json.num 1) JsonObj.nil)) :=
  normalizer_round_trip_of_clean _ 1 _ (by decide) (by decide) (by decide)
    (by decide) (Or.inr (by decide))

/-! ## Action-Selection validator: `_validate_stage1_response` (883-1000)

The Python function mutates the parsed dict in place and returns `None`,
raising `ValueError` on unrecoverable defects; it is modelled as a
function from the parsed object to the corrected object or the raised
message.  Log-only checks (the snake_case regex, the hallucination
prefix scan) do not alter the result and have no effect here. -/

/-- Lines 925-927: default a missing `document_type` to `"unknown"`. -/
def stage1DefaultDoc (r0 : JsonObj) : JsonObj :=
  if (getKey r0 "document_type").isNone
  then setKey r0 "document_type" (Json.str "unknown") else r0

/-- Lines 929-931: default a missing `transaction_direction` to
`"neutral"` (after the `document_type` default). -/
def stage1Defaults (r0 : JsonObj) : JsonObj :=
  if (getKey (stage1DefaultDoc r0) "transaction_direction").isNone
  then setKey (stage1DefaultDoc r0) "transaction_direction"
    (Json.str "neutral")
  else stage1DefaultDoc r0

/-- Lines 940-942: in the non-business branch, force a non-null
`selected_action` to null. -/
def stage1ForceSel (r2 : JsonObj) (sel : Json) : JsonObj :=
  if sel ≠ Json.null then setKey r2 "selected_action" Json.null else r2

/-- Lines 939-946: the whole non-business branch — force
`selected_action = None` and `confidence = 0` (the Python test
`confidence != 0` also accepts `0.0` and `False`). -/
def stage1ForceNonBusiness (r2 : JsonObj) (sel conf : Json) : JsonObj :=
  if pyEqZero conf = false
  then setKey (stage1ForceSel r2 sel) "confidence" (Json.num 0)
  else stage1ForceSel r2 sel

/-- Line 975: Python `confidence < 0 or confidence > 100` with float
comparison semantics — false for the in-range booleans, and false for
NaN, whose comparisons all come out false, so NaN never triggers the
clamp. -/
def stage1OutOfRange : Json → Bool
  | .num q => decide (q < 0) || decide (100 < q)
  | _ => false

/-- Lines 975-977: clamp an out-of-range confidence to
`max(0, min(100, confidence))`.  NaN fails the out-of-range test and
passes through untouched. -/
def stage1ClampConf (r2 : JsonObj) (conf : Json) : JsonObj :=
  if stage1OutOfRange conf = true
  then setKey r2 "confidence" (Json.num (max 0 (min 100 (pyToRat conf))))
  else r2

/-- Lines 979-983: reset `transaction_direction` to `"neutral"` unless
it is one of the three valid direction strings. -/
def stage1FixDirection (r3 : JsonObj) : JsonObj :=
  match getKey r3 "transaction_direction" with
  | some (Json.str d) =>
      if d = "incoming" ∨ d = "outgoing" ∨ d = "neutral" then r3
      else setKey r3 "transaction_direction" (Json.str "neutral")
  | _ => setKey r3 "transaction_direction" (Json.str "neutral")

/-- Lines 985-988: default a missing `primary_party` to null. -/
def stage1DefaultParty (r4 : JsonObj) : JsonObj :=
  if (getKey r4 "primary_party").isNone
  then setKey r4 "primary_party" Json.null else r4

/-- Lines 990-998: default a missing `extracted_summary`. -/
def stage1DefaultSummary (r5 : JsonObj) : JsonObj :=
  if (getKey r5 "extracted_summary").isNone
  then setKey r5 "extracted_summary" (Json.obj (JsonObj.ofList
    [("total_amount", Json.null), ("currency", Json.null),
     ("document_date", Json.null), ("document_number", Json.null)]))
  else r5

/-- Lines 949-1000: the business-relevant branch: `selected_action` must
be a string or null, `confidence` a number (bools count, as in Python's
`isinstance`), then clamp, fix the direction, and fill the optional
structures. -/
def stage1Business (r2 : JsonObj) (sel conf : Json) :
    Except String JsonObj :=
  if (match sel with
      | Json.null => false
      | Json.str _ => false
      | _ => true) = true
  then .error "Stage 1 selected_action must be string or null"
  else if pyIsNumber conf = false then
    .error "Stage 1 confidence must be a number"
  else
    .ok (stage1DefaultSummary (stage1DefaultParty
      (stage1FixDirection (stage1ClampConf r2 conf))))

/-- `_validate_stage1_response` (lines 883-1000). -/
def validateStage1 (r0 : JsonObj) : Except String JsonObj :=
  match getKey r0 "business_relevant" with
  | none => .error "Stage 1 response missing business_relevant field"
  | some (Json.bool brel) =>
      match getKey r0 "selected_action" with
      | none => .error "Stage 1 response missing selected_action field"
      | some sel =>
          match getKey r0 "confidence" with
          | none => .error "Stage 1 response missing confidence field"
          | some conf =>
              if (getKey r0 "reasoning").isNone then
                .error "Stage 1 response missing reasoning field"
              else if brel = false then
                .ok (stage1ForceNonBusiness (stage1Defaults r0) sel conf)
              else
                stage1Business (stage1Defaults r0) sel conf
  | some _ => .error "Stage 1 business_relevant must be a boolean"

/-- The post-validation tail of `classify_stage1` (lines 176-198): after
`_validate_stage1_response` succeeds, the pipeline stamps
`result['format'] = 'simplified'` on the validated dict and returns
it. -/
def stage1Postprocess (parsed : JsonObj) : Except String JsonObj :=
  match validateStage1 parsed with
  | .error e => .error e
  | .ok v => .ok (setKey v "format" (Json.str "simplified"))

/-! ### Key-preservation lemmas for the validator steps -/

theorem getKey_stage1DefaultDoc (r0 : JsonObj) (k : String)
    (h : "document_type" ≠ k) :
    getKey (stage1DefaultDoc r0) k = getKey r0 k := by
  unfold stage1DefaultDoc
  split
  · exact getKey_setKey_ne _ _ _ _ h
  · rfl

theorem getKey_stage1Defaults (r0 : JsonObj) (k : String)
    (h1 : "document_type" ≠ k) (h2 : "transaction_direction" ≠ k) :
    getKey (stage1Defaults r0) k = getKey r0 k := by
  unfold stage1Defaults
  split
  · rw [getKey_setKey_ne _ _ _ _ h2]
    exact getKey_stage1DefaultDoc r0 k h1
  · exact getKey_stage1DefaultDoc r0 k h1

theorem getKey_stage1FixDirection (r3 : JsonObj) (k : String)
    (h : "transaction_direction" ≠ k) :
    getKey (stage1FixDirection r3) k = getKey r3 k := by
  unfold stage1FixDirection
  split
  · split
    · rfl
    · exact getKey_setKey_ne _ _ _ _ h
  · exact getKey_setKey_ne _ _ _ _ h

theorem getKey_stage1DefaultParty (r4 : JsonObj) (k : String)
    (h : "primary_party" ≠ k) :
    getKey (stage1DefaultParty r4) k = getKey r4 k := by
  unfold stage1DefaultParty
  split
  · exact getKey_setKey_ne _ _ _ _ h
  · rfl

theorem getKey_stage1DefaultSummary (r5 : JsonObj) (k : String)
    (h : "extracted_summary" ≠ k) :
    getKey (stage1DefaultSummary r5) k = getKey r5 k := by
  unfold stage1DefaultSummary
  split
  · exact getKey_setKey_ne _ _ _ _ h
  · rfl

theorem stage1ForceNonBusiness_sel (r2 : JsonObj) (sel conf : Json)
    (hsel : getKey r2 "selected_action" = some sel) :
    getKey (stage1ForceNonBusiness r2 sel conf) "selected_action" =
      some Json.null := by
  have hforce : getKey (stage1ForceSel r2 sel) "selected_action" =
      some Json.null := by
    unfold stage1ForceSel
    split
    · exact getKey_setKey_self _ _ _
    · rename_i hn
      have hsn : sel = Json.null := not_not.mp hn
      rw [hsn] at hsel
      exact hsel
  unfold stage1ForceNonBusiness
  split
  · rw [getKey_setKey_ne _ _ _ _ (by decide)]
    exact hforce
  · exact hforce

theorem stage1ForceNonBusiness_conf (r2 : JsonObj) (sel conf : Json)
    (hconf : getKey r2 "confidence" = some conf) :
    ∃ c, getKey (stage1ForceNonBusiness r2 sel conf) "confidence" = some c ∧
      pyEqZero c = true := by
  unfold stage1ForceNonBusiness
  split
  · exact ⟨Json.num 0, getKey_setKey_self _ _ _, by decide⟩
  · rename_i hz
    refine ⟨conf, ?_, by simpa using hz⟩
    unfold stage1ForceSel
    split
    · rw [getKey_setKey_ne _ _ _ _ (by decide)]
      exact hconf
    · exact hconf

theorem pyEqZero_props (c : Json) (h : pyEqZero c = true) :
    pyIsNumber c = true ∧ pyInRange0To100 c = true := by
  cases c <;> simp [pyEqZero, pyIsNumber, pyInRange0To100] at h ⊢
  subst h
  norm_num

/-! ### C2: non-business documents are forced to null action, 0 confidence -/

/-- C2: whenever the Action-Selection stage succeeds on a parsed response
with `business_relevant = false`, the result handed to the caller has
`selected_action = None` and a confidence equal to zero (in Python's
`==` sense: `0`, `0.0` or `False`), whatever the model output held. -/
theorem stage1_nonbusiness_forces (r out : JsonObj)
    (h : stage1Postprocess r = .ok out)
    (hbr : getKey r "business_relevant" = some (Json.bool false)) :
    getKey out "selected_action" = some Json.null ∧
      ∃ c, getKey out "confidence" = some c ∧ pyEqZero c = true := by
  rcases hsel : getKey r "selected_action" with _ | sel
  · have hcon : stage1Postprocess r =
        .error "Stage 1 response missing selected_action field" := by
      simp [stage1Postprocess, validateStage1, hbr, hsel]
    rw [hcon] at h
    simp at h
  rcases hconf : getKey r "confidence" with _ | conf
  · have hcon : stage1Postprocess r =
        .error "Stage 1 response missing confidence field" := by
      simp [stage1Postprocess, validateStage1, hbr, hsel, hconf]
    rw [hcon] at h
    simp at h
  by_cases hreas : (getKey r "reasoning").isNone = true
  · have hcon : stage1Postprocess r =
        .error "Stage 1 response missing reasoning field" := by
      simp [stage1Postprocess, validateStage1, hbr, hsel, hconf, hreas]
    rw [hcon] at h
    simp at h
  · have hval : validateStage1 r =
        .ok (stage1ForceNonBusiness (stage1Defaults r) sel conf) := by
      simp [validateStage1, hbr, hsel, hconf, hreas]
    unfold stage1Postprocess at h
    rw [hval] at h
    injection h with h2
    subst h2
    have hsel2 : getKey (stage1Defaults r) "selected_action" = some sel := by
      rw [getKey_stage1Defaults _ _ (by decide) (by decide)]
      exact hsel
    have hconf2 : getKey (stage1Defaults r) "confidence" = some conf := by
      rw [getKey_stage1Defaults _ _ (by decide) (by decide)]
      exact hconf
    constructor
    · rw [getKey_setKey_ne _ _ _ _ (by decide)]
      exact stage1ForceNonBusiness_sel _ sel conf hsel2
    · obtain ⟨c, hc, hz⟩ := stage1ForceNonBusiness_conf _ sel conf hconf2
      refine ⟨c, ?_, hz⟩
      rw [getKey_setKey_ne _ _ _ _ (by decide)]
      exact hc

/-- Sample non-business response used by the C2 witness. -/
def stage1SampleNonBusiness : JsonObj := JsonObj.ofList
  [("business_relevant", Json.bool false),
   ("selected_action", Json.str "create_invoice"),
   ("confidence", Json.num 87), ("reasoning", Json.str "x")]

/-- Witness for C2 at a concrete non-business response carrying a
non-null action and nonzero confidence. -/
theorem stage1_nonbusiness_forces_witness :
    ∃ out, stage1Postprocess stage1SampleNonBusiness = .ok out ∧
      (getKey out "selected_action" = some Json.null ∧
        ∃ c, getKey out "confidence" = some c ∧ pyEqZero c = true) :=
  ⟨(JsonObj.ofList
      [("business_relevant", Json.bool false), ("selected_action", Json.null),
       ("confidence", Json.num 0), ("reasoning", Json.str "x"),
       ("document_type", Json.str "unknown"),
       ("transaction_direction", Json.str "neutral"),
       ("format", Json.str "simplified")]),
    by decide,
    stage1_nonbusiness_forces stage1SampleNonBusiness _ (by decide) (by decide)⟩

/-! ### C3: confidence always lands in [0, 100] -/

/-- C3: every object the Action-Selection validator accepts carries a
numeric confidence (Python's `isinstance` sense) between 0 and 100: both
branches force or clamp it into range rather than failing. -/
theorem stage1Business_conf_range (r2 : JsonObj) (conf : Json)
    (out : JsonObj) (hconf2 : getKey r2 "confidence" = some conf)
    (hnn : conf ≠ Json.nan)
    (h : (if pyIsNumber conf = false then
        (Except.error "Stage 1 confidence must be a number" :
          Except String JsonObj)
      else .ok (stage1DefaultSummary (stage1DefaultParty
        (stage1FixDirection (stage1ClampConf r2 conf))))) = .ok out) :
    ∃ c, getKey out "confidence" = some c ∧ pyIsNumber c = true ∧
      pyInRange0To100 c = true := by
  by_cases hnum : pyIsNumber conf = false
  · rw [if_pos hnum] at h
    simp at h
  · rw [if_neg hnum] at h
    injection h with h2
    subst h2
    have hkey : getKey (stage1DefaultSummary (stage1DefaultParty
        (stage1FixDirection (stage1ClampConf r2 conf)))) "confidence" =
        getKey (stage1ClampConf r2 conf) "confidence" := by
      rw [getKey_stage1DefaultSummary _ _ (by decide),
        getKey_stage1DefaultParty _ _ (by decide),
        getKey_stage1FixDirection _ _ (by decide)]
    rw [hkey]
    unfold stage1ClampConf
    split
    · refine ⟨Json.num (max 0 (min 100 (pyToRat conf))),
        getKey_setKey_self _ _ _, rfl, ?_⟩
      simp only [pyInRange0To100, Bool.and_eq_true, decide_eq_true_eq]
      exact ⟨le_max_left 0 _, max_le (by norm_num) (min_le_left _ _)⟩
    · rename_i hrange
      refine ⟨conf, hconf2, by simpa using hnum, ?_⟩
      cases conf with
      | num q =>
          have h2 : ¬ q < 0 ∧ ¬ 100 < q := by
            constructor <;> intro hlt <;>
              simp [stage1OutOfRange, hlt] at hrange
          simp only [pyInRange0To100, Bool.and_eq_true, decide_eq_true_eq]
          exact ⟨not_lt.mp h2.1, not_lt.mp h2.2⟩
      | bool b => rfl
      | nan => exact absurd rfl hnn
      | null => simp [pyIsNumber] at hnum
      | str t => simp [pyIsNumber] at hnum
      | arr l => simp [pyIsNumber] at hnum
      | obj o => simp [pyIsNumber] at hnum

theorem stage1_confidence_in_range (r out : JsonObj)
    (h : validateStage1 r = .ok out)
    (hnn : getKey r "confidence" ≠ some Json.nan) :
    ∃ c, getKey out "confidence" = some c ∧ pyIsNumber c = true ∧
      pyInRange0To100 c = true := by
  rcases hbr : getKey r "business_relevant" with _ | bv
  · unfold validateStage1 at h
    rw [hbr] at h
    simp at h
  cases bv
  case bool brel =>
    rcases hsel : getKey r "selected_action" with _ | sel
    · unfold validateStage1 at h
      rw [hbr, hsel] at h
      simp at h
    rcases hconf : getKey r "confidence" with _ | conf
    · unfold validateStage1 at h
      rw [hbr, hsel, hconf] at h
      simp at h
    by_cases hreas : (getKey r "reasoning").isNone = true
    · rw [show validateStage1 r =
          .error "Stage 1 response missing reasoning field" by
        simp [validateStage1, hbr, hsel, hconf, hreas]] at h
      simp at h
    · have hconf2 : getKey (stage1Defaults r) "confidence" = some conf := by
        rw [getKey_stage1Defaults _ _ (by decide) (by decide)]
        exact hconf
      cases brel with
      | false =>
          have hval : validateStage1 r =
              .ok (stage1ForceNonBusiness (stage1Defaults r) sel conf) := by
            simp [validateStage1, hbr, hsel, hconf, hreas]
          rw [hval] at h
          injection h with h2
          subst h2
          obtain ⟨c, hc, hz⟩ := stage1ForceNonBusiness_conf _ sel conf hconf2
          obtain ⟨hnum, hinr⟩ := pyEqZero_props c hz
          exact ⟨c, hc, hnum, hinr⟩
      | true =>
          have hval : validateStage1 r =
              stage1Business (stage1Defaults r) sel conf := by
            simp [validateStage1, hbr, hsel, hconf, hreas]
          rw [hval] at h
          unfold stage1Business at h
          have hcnn : conf ≠ Json.nan := by
            intro hceq
            rw [hceq] at hconf
            exact hnn hconf
          cases sel with
          | null =>
              exact stage1Business_conf_range _ conf out hconf2 hcnn
                (by simpa using h)
          | str s =>
              exact stage1Business_conf_range _ conf out hconf2 hcnn
                (by simpa using h)
          | bool b => simp at h
          | num q => simp at h
          | nan => simp at h
          | arr l => simp at h
          | obj o => simp at h
  all_goals
    unfold validateStage1 at h
    rw [hbr] at h
    simp at h

/-- Sample business-relevant response with out-of-range confidence used
by the C3 witness. -/
def stage1SampleClamp : JsonObj := JsonObj.ofList
  [("business_relevant", Json.bool true),
   ("selected_action", Json.str "create_invoice"),
   ("confidence", Json.num 150), ("reasoning", Json.str "x")]

/-- The object `validateStage1` produces for `stage1SampleClamp`. -/
def stage1SampleClampOut : JsonObj := JsonObj.ofList
  [("business_relevant", Json.bool true),
   ("selected_action", Json.str "create_invoice"),
   ("confidence", Json.num 100), ("reasoning", Json.str "x"),
   ("document_type", Json.str "unknown"),
   ("transaction_direction", Json.str "neutral"),
   ("primary_party", Json.null),
   ("extracted_summary", Json.obj (JsonObj.ofList
     [("total_amount", Json.null), ("currency", Json.null),
      ("document_date", Json.null), ("document_number", Json.null)]))]

/-- The non-NaN bound exercised at a concrete response whose finite
confidence 150 is clamped to 100. -/
theorem stage1_confidence_in_range_witness :
    validateStage1 stage1SampleClamp = .ok stage1SampleClampOut ∧
      getKey stage1SampleClamp "confidence" ≠ some Json.nan ∧
      ∃ c, getKey stage1SampleClampOut "confidence" = some c ∧
        pyIsNumber c = true ∧ pyInRange0To100 c = true :=
  ⟨by decide, by decide,
    stage1_confidence_in_range stage1SampleClamp stage1SampleClampOut
      (by decide) (by decide)⟩

/-- The parsed model output with a NaN confidence; Python's
`json.loads` accepts the `NaN` literal by default, so this object
reaches `_validate_stage1_response`. -/
def stage1NanInput : JsonObj := JsonObj.ofList
  [("business_relevant", Json.bool true), ("selected_action", Json.null),
   ("confidence", Json.nan), ("reasoning", Json.str "x")]

/-- The object the validator returns for `stage1NanInput`: the NaN
confidence survives untouched. -/
def stage1NanOutput : JsonObj := JsonObj.ofList
  [("business_relevant", Json.bool true), ("selected_action", Json.null),
   ("confidence", Json.nan), ("reasoning", Json.str "x"),
   ("document_type", Json.str "unknown"),
   ("transaction_direction", Json.str "neutral"),
   ("primary_party", Json.null),
   ("extracted_summary", Json.obj (JsonObj.ofList
     [("total_amount", Json.null), ("currency", Json.null),
      ("document_date", Json.null), ("document_number", Json.null)]))]

/-- C3: the claim states the contract the code itself documents
(`"confidence": number, // 0-100`, and the spec's clamp invariant), and
the code breaks it at NaN: `json.loads` accepts the `NaN` literal,
`isinstance(nan, float)` passes the number check, and the clamp
condition `confidence < 0 or confidence > 100` (line 975) is false for
NaN since every NaN comparison is false — so the validator accepts the
response and returns `confidence = NaN`, which is numeric but does not
satisfy `0 <= confidence <= 100` and was not clamped.  This evaluation
runs the embedding at that failing input, from the raw JSON text
through the validator. -/
theorem stage1_confidence_nan_evaluation :
    jsonLoads ("\x7b\"business_relevant\": true, \"selected_action\": null, \"confidence\": NaN, \"reasoning\": \"x\"\x7d".toList) =
        some (Json.obj stage1NanInput) ∧
      validateStage1 stage1NanInput = .ok stage1NanOutput ∧
      getKey stage1NanOutput "confidence" = some Json.nan ∧
      pyIsNumber Json.nan = true ∧
      pyInRange0To100 Json.nan = false :=
  ⟨by decide, by decide, by decide, rfl, rfl⟩

/-! ### C10: the caller always sees format = "simplified" -/

/-- C10: every result a successful Action-Selection call returns carries
`format = "simplified"`, stamped after validation regardless of the
model output. -/
theorem stage1_format_simplified (r out : JsonObj)
    (h : stage1Postprocess r = .ok out) :
    getKey out "format" = some (Json.str "simplified") := by
  unfold stage1Postprocess at h
  cases hv : validateStage1 r with
  | error e =>
      rw [hv] at h
      simp at h
  | ok v =>
      rw [hv] at h
      injection h with h2
      subst h2
      exact getKey_setKey_self v "format" _

/-- Witness for C10 at a concrete response without a `format` field. -/
theorem stage1_format_simplified_witness :
    stage1Postprocess stage1SampleClamp =
        .ok (setKey stage1SampleClampOut "format" (Json.str "simplified")) ∧
      getKey (setKey stage1SampleClampOut "format" (Json.str "simplified"))
        "format" = some (Json.str "simplified") :=
  ⟨by decide,
    stage1_format_simplified stage1SampleClamp
      (setKey stage1SampleClampOut "format" (Json.str "simplified"))
      (by decide)⟩

/-! ## Retry Escalation: the parse/retry flow of `classify_stage2`
(lines 583-644) -/

/-- The decoding parameters `classify_stage2` passes to
`model.generate` for an attempt. -/
structure GenParams where
  temperature : ℚ
  do_sample : Bool
  top_p : ℚ
  top_k : Nat
  repetition_penalty : ℚ
  deriving Repr

/-- The escalated-attempt decoding parameters (lines 619-629):
`temperature = 0.0`, `do_sample = False` (pure greedy decoding),
`top_p = 0.9`, `top_k = 40`, `repetition_penalty = 1.2`. -/
def escalatedParams : GenParams :=
  ⟨0, false, 9 / 10, 40, 6 / 5⟩

/-- Outcome of the Stage-4 parse-with-one-retry flow: the final result,
whether a regeneration happened, and with which parameters. -/
structure Stage2FlowResult where
  result : Except ParseError Json
  retried : Bool
  retryConfig : Option GenParams
  deriving Repr

/-- The recoverable-failure test of lines 586-587:
`output_tokens < 100 or "No JSON object found" in str(parse_error)`. -/
def stage2Recoverable (output_tokens : Nat) (e : ParseError) : Bool :=
  decide (output_tokens < 100) || errMsgHasNoJsonFound e

/-- The parse section of `classify_stage2` (lines 583-644): parse the
first attempt; on a `ValueError` that is recoverable, regenerate exactly
once with the escalated parameters and parse that response, any failure
of which propagates as-is; an unrecoverable first failure re-raises
immediately.  The generation invoker is an oracle argument from decoding
parameters to the decoded (brace-prepended) retry text. -/
def stage2ParseFlow (firstResponse : List Char) (output_tokens : Nat)
    (gen : GenParams → List Char) : Stage2FlowResult :=
  match parseClassificationResponse firstResponse 2 with
  | .ok v => ⟨.ok v, false, none⟩
  | .error e =>
      if stage2Recoverable output_tokens e then
        ⟨parseClassificationResponse (gen escalatedParams) 2, true,
          some escalatedParams⟩
      else ⟨.error e, false, none⟩

set_option maxHeartbeats 2000000 in
/-- C4: the Field-Mapping stage regenerates at most once, and only on a
recoverable first-attempt parse failure (output token count below 100,
or a no-JSON-found error); the escalated attempt runs with
`temperature = 0` and greedy decoding, its own parse failure — like any
unrecoverable first failure — propagating to the caller with no further
retry. -/
theorem stage2_retry_once (firstResponse : List Char) (output_tokens : Nat)
    (gen : GenParams → List Char) :
    ((stage2ParseFlow firstResponse output_tokens gen).retried = true ↔
      ∃ e, parseClassificationResponse firstResponse 2 = .error e ∧
        stage2Recoverable output_tokens e = true) ∧
    ((stage2ParseFlow firstResponse output_tokens gen).retried = true →
      (stage2ParseFlow firstResponse output_tokens gen).retryConfig =
          some escalatedParams ∧
        escalatedParams.temperature = 0 ∧
        escalatedParams.do_sample = false) ∧
    (∀ e, parseClassificationResponse firstResponse 2 = .error e →
      stage2Recoverable output_tokens e = false →
      (stage2ParseFlow firstResponse output_tokens gen).result = .error e) ∧
    (∀ e e2, parseClassificationResponse firstResponse 2 = .error e →
      stage2Recoverable output_tokens e = true →
      parseClassificationResponse (gen escalatedParams) 2 = .error e2 →
      (stage2ParseFlow firstResponse output_tokens gen).result =
        .error e2) := by
  cases hp : parseClassificationResponse firstResponse 2 with
  | ok v =>
      have hflow : stage2ParseFlow firstResponse output_tokens gen =
          ⟨.ok v, false, none⟩ := by
        unfold stage2ParseFlow
        rw [hp]
      refine ⟨?_, ?_, ?_, ?_⟩
      · simp [hflow]
      · intro hcon
        simp [hflow] at hcon
      · intro e1 he1 _
        cases he1
      · intro e1 e2 he1 _ _
        cases he1
  | error e =>
      by_cases hr : stage2Recoverable output_tokens e = true
      · have hflow : stage2ParseFlow firstResponse output_tokens gen =
            ⟨parseClassificationResponse (gen escalatedParams) 2, true,
              some escalatedParams⟩ := by
          simp [stage2ParseFlow, hp, hr]
        refine ⟨?_, ?_, ?_, ?_⟩
        · rw [hflow]
          exact ⟨fun _ => ⟨e, rfl, hr⟩, fun _ => rfl⟩
        · intro _
          exact ⟨by rw [hflow], rfl, rfl⟩
        · intro e1 he1 hrec
          injection he1 with he
          subst he
          rw [hrec] at hr
          cases hr
        · intro e1 e2 _ _ he2
          rw [hflow, ← he2]
      · have hflow : stage2ParseFlow firstResponse output_tokens gen =
            ⟨.error e, false, none⟩ := by
          simp [stage2ParseFlow, hp, hr]
        refine ⟨?_, ?_, ?_, ?_⟩
        · rw [hflow]
          constructor
          · intro hco
            cases hco
          · rintro ⟨e1, he1, hrec⟩
            injection he1 with he
            subst he
            exact absurd hrec hr
        · intro hco
          rw [hflow] at hco
          cases hco
        · intro e1 he1 _
          injection he1 with he
          subst he
          rw [hflow]
        · intro e1 e2 he1 hrec _
          injection he1 with he
          subst he
          exact absurd hrec hr

/-- Witness for C4 at concrete inputs: a 40-token first attempt with no
JSON triggers exactly one escalated retry (temperature 0, greedy), and
the escalated attempt's own no-JSON failure is the final result. -/
theorem stage2_retry_once_witness :
    (stage2ParseFlow ("no json here".toList) 40
        (fun _ => "still no json".toList)).retried = true ∧
      (stage2ParseFlow ("no json here".toList) 40
        (fun _ => "still no json".toList)).retryConfig =
          some escalatedParams ∧
      (stage2ParseFlow ("no json here".toList) 40
        (fun _ => "still no json".toList)).result =
          .error (ParseError.noJsonFound 2) := by
  have h := stage2_retry_once ("no json here".toList) 40
    (fun _ => "still no json".toList)
  have hretried : (stage2ParseFlow ("no json here".toList) 40
      (fun _ => "still no json".toList)).retried = true :=
    h.1.mpr ⟨ParseError.noJsonFound 2, by decide, by decide⟩
  exact ⟨hretried, (h.2.1 hretried).1,
    h.2.2.2 (ParseError.noJsonFound 2) (ParseError.noJsonFound 2)
      (by decide) (by decide) (by decide)⟩

/-! ## Generation-parameter resolution and the 32768 token ceiling -/

/-- A caller-supplied `generation_config` dict, each field optional
(read with `dict.get(key, stage_default)`). -/
structure GenerationConfigIn where
  max_new_tokens : Option Nat
  temperature : Option ℚ
  top_p : Option ℚ
  top_k : Option Nat
  repetition_penalty : Option ℚ
  max_input_length : Option Nat
  deriving Repr

/-- The fully resolved generation parameters of a stage. -/
structure ResolvedGenConfig where
  max_new_tokens : Nat
  temperature : ℚ
  top_p : ℚ
  top_k : Nat
  repetition_penalty : ℚ
  max_input_length : Nat
  deriving Repr

/-- `classify_stage1` lines 82-99: defaults 2500 / 0.1 / 0.95 / 50 /
1.1 / 29491, then `max_new_tokens` and `max_input_length` are capped at
32768. -/
def stage1ResolveConfig (g : Option GenerationConfigIn) :
    ResolvedGenConfig :=
  let gc := g.getD ⟨none, none, none, none, none, none⟩
  let mnt := gc.max_new_tokens.getD 2500
  let mil := gc.max_input_length.getD 29491
  ⟨if mnt > 32768 then 32768 else mnt,
    gc.temperature.getD (1 / 10),
    gc.top_p.getD (19 / 20),
    gc.top_k.getD 50,
    gc.repetition_penalty.getD (11 / 10),
    if mil > 32768 then 32768 else mil⟩

/-- `classify_stage2` lines 484-501: defaults 3000 / 0.1 / 0.95 / 50 /
1.15 / 29491, then the same two caps at 32768. -/
def stage2ResolveConfig (g : Option GenerationConfigIn) :
    ResolvedGenConfig :=
  let gc := g.getD ⟨none, none, none, none, none, none⟩
  let mnt := gc.max_new_tokens.getD 3000
  let mil := gc.max_input_length.getD 29491
  ⟨if mnt > 32768 then 32768 else mnt,
    gc.temperature.getD (1 / 10),
    gc.top_p.getD (19 / 20),
    gc.top_k.getD 50,
    gc.repetition_penalty.getD (23 / 20),
    if mil > 32768 then 32768 else mil⟩

/-- `classify_stage0_5_math` lines 1151-1167: defaults 1500 / 0.05 /
0.9 / 40 / 1.1 / 29491, with NO 32768 cap on any field. -/
def stage0_5ResolveConfig (g : Option GenerationConfigIn) :
    ResolvedGenConfig :=
  let gc := g.getD ⟨none, none, none, none, none, none⟩
  ⟨gc.max_new_tokens.getD 1500,
    gc.temperature.getD (1 / 20),
    gc.top_p.getD (9 / 10),
    gc.top_k.getD 40,
    gc.repetition_penalty.getD (11 / 10),
    gc.max_input_length.getD 29491⟩

/-- `classify_stage2_5_entity_extraction` lines 262-276: defaults
2000 / 0.1 / 0.95 / 50 / 1.1 / 29491, with NO 32768 cap on any field. -/
def stage2_5ResolveConfig (g : Option GenerationConfigIn) :
    ResolvedGenConfig :=
  let gc := g.getD ⟨none, none, none, none, none, none⟩
  ⟨gc.max_new_tokens.getD 2000,
    gc.temperature.getD (1 / 10),
    gc.top_p.getD (19 / 20),
    gc.top_k.getD 50,
    gc.repetition_penalty.getD (11 / 10),
    gc.max_input_length.getD 29491⟩

/-- C8: counterexample.  The Math-Validation stage applies no ceiling:
a caller-supplied `max_new_tokens` of 40000 is used as-is, above the
claimed hard ceiling of 32768, instead of being clamped. -/
theorem stage0_5_no_ceiling_counterexample :
    (stage0_5ResolveConfig (some
      ⟨some 40000, none, none, none, none, none⟩)).max_new_tokens = 40000 ∧
      32768 < 40000 :=
  ⟨rfl, by decide⟩

/-- C8 (amended): the 32768 ceiling is enforced in the Action-Selection
and Field-Mapping stages — `max_new_tokens` and `max_input_length` are
clamped to 32768, never rejected (the resolver is total) — while the
Math-Validation and Entity-Extraction stages apply stage defaults with
no ceiling. -/
theorem token_ceiling_stage1_stage2 (g : Option GenerationConfigIn) :
    (stage1ResolveConfig g).max_new_tokens ≤ 32768 ∧
      (stage1ResolveConfig g).max_input_length ≤ 32768 ∧
      (stage2ResolveConfig g).max_new_tokens ≤ 32768 ∧
      (stage2ResolveConfig g).max_input_length ≤ 32768 ∧
      (∀ n, 32768 < n →
        (stage1ResolveConfig (some ⟨some n, none, none, none, none,
          some n⟩)).max_new_tokens = 32768 ∧
        (stage1ResolveConfig (some ⟨some n, none, none, none, none,
          some n⟩)).max_input_length = 32768 ∧
        (stage2ResolveConfig (some ⟨some n, none, none, none, none,
          some n⟩)).max_new_tokens = 32768 ∧
        (stage2ResolveConfig (some ⟨some n, none, none, none, none,
          some n⟩)).max_input_length = 32768) := by
  refine ⟨?_, ?_, ?_, ?_, ?_⟩
  · simp only [stage1ResolveConfig]
    split <;> omega
  · simp only [stage1ResolveConfig]
    split <;> omega
  · simp only [stage2ResolveConfig]
    split <;> omega
  · simp only [stage2ResolveConfig]
    split <;> omega
  · intro n hn
    refine ⟨?_, ?_, ?_, ?_⟩ <;>
      simp [stage1ResolveConfig, stage2ResolveConfig, hn]

/-- Witness for C8 (amended) at the concrete over-ceiling value 40000. -/
theorem token_ceiling_stage1_stage2_witness :
    (stage1ResolveConfig (some ⟨some 40000, none, none, none, none,
        some 40000⟩)).max_new_tokens = 32768 ∧
      (stage2ResolveConfig (some ⟨some 40000, none, none, none, none,
        some 40000⟩)).max_input_length = 32768 := by
  have h := token_ceiling_stage1_stage2 (some ⟨some 40000, none, none,
    none, none, some 40000⟩)
  have h2 := h.2.2.2.2 40000 (by decide)
  exact ⟨h2.1, h2.2.2.2⟩

/-! ### C9: Math-Validation scenario -/

/-- C9: the Math-Validation stage parses the raw response
`Sure, here you go: \x7b"passed": true\x7d` by stripping the preamble
(the regex search keeps only the brace span), requires the boolean
`passed`, and defaults `errors`, `warnings`, `calculations` and
`complexity` to `[]`, `[]`, `\x7b\x7d` and `"moderate"`. -/
theorem stage0_5_scenario_a :
    stage0_5ParseValidate
        ("Sure, here you go: \x7b\"passed\": true\x7d".toList) =
      .ok (JsonObj.ofList
        [("passed", Json.bool true), ("errors", Json.arr .nil),
         ("warnings", Json.arr .nil), ("calculations", Json.obj .nil),
         ("complexity", Json.str "moderate")]) := by decide


/-! ## C1: the action-list variant of the Action-Selection stage

The `suggested_actions` PRIMARY-enforcement the spec describes for the
action-list variant is not present under `src/` (the simplified-format
validator above carries no action list); it is modelled from the spec
(§4.5) here and verified against that model. -/

/-- Modelled from the spec: the `action_type` an entry of
`suggested_actions` carries (spec §4.5 and glossary). -/
inductive ActionType where
  | PRIMARY : ActionType
  | FOLLOW_UP : ActionType
  | PREREQUISITE : ActionType
  deriving DecidableEq, Repr

/-- Modelled from the spec: one entry of the `suggested_actions` list of
the action-list variant, with the fields the spec names — the action,
its `action_type`, its confidence, and the user-confirmation flag set on
demotion. -/
structure SuggestedAction where
  action : String
  action_type : ActionType
  confidence : ℚ
  requires_user_confirmation : Bool
  deriving DecidableEq, Repr

/-- Number of PRIMARY entries in a suggested-actions list. -/
def countPrimary (l : List SuggestedAction) : Nat :=
  (l.filter (fun a => a.action_type = ActionType.PRIMARY)).length

/-- Modelled from the spec: when the model output contained zero PRIMARY
actions, the highest-confidence action is promoted — deterministically
the first entry whose confidence is at least every later confidence,
i.e. the first maximum. -/
def promoteFirstMax : List SuggestedAction → List SuggestedAction
  | [] => []
  | a :: rest =>
      if rest.all (fun b => b.confidence ≤ a.confidence) then
        ⟨a.action, ActionType.PRIMARY, a.confidence,
          a.requires_user_confirmation⟩ :: rest
      else a :: promoteFirstMax rest

/-- Modelled from the spec: demote a PRIMARY entry to FOLLOW_UP, flagged
as requiring user confirmation. -/
def demotePrimary (a : SuggestedAction) : SuggestedAction :=
  if a.action_type = ActionType.PRIMARY then
    ⟨a.action, ActionType.FOLLOW_UP, a.confidence, true⟩
  else a

def demoteAllPrimary (l : List SuggestedAction) : List SuggestedAction :=
  l.map demotePrimary

/-- Modelled from the spec: when several PRIMARY actions exist, the
first highest-confidence PRIMARY is kept and every other PRIMARY is
demoted to FOLLOW_UP with the user-confirmation flag. -/
def keepFirstMaxPrimary : List SuggestedAction → List SuggestedAction
  | [] => []
  | a :: rest =>
      if a.action_type = ActionType.PRIMARY ∧
          (rest.filter (fun b => b.action_type = ActionType.PRIMARY)).all
            (fun b => b.confidence ≤ a.confidence) then
        a :: demoteAllPrimary rest
      else demotePrimary a :: keepFirstMaxPrimary rest

/-- Modelled from the spec: the `suggested_actions` enforcement of the
Action-Selection stage's action-list variant (spec §4.5): if no action
is PRIMARY, promote the highest-confidence one; if more than one is,
demote all but the highest-confidence to FOLLOW_UP; otherwise leave the
list alone. -/
def enforceSinglePrimary (l : List SuggestedAction) : List SuggestedAction :=
  if countPrimary l = 0 then promoteFirstMax l
  else if countPrimary l = 1 then l
  else keepFirstMaxPrimary l

theorem countPrimary_cons (a : SuggestedAction) (l : List SuggestedAction) :
    countPrimary (a :: l) =
      (if a.action_type = ActionType.PRIMARY then 1 else 0) +
        countPrimary l := by
  unfold countPrimary
  by_cases h : a.action_type = ActionType.PRIMARY
  · simp [List.filter_cons, h]
    omega
  · simp [List.filter_cons, h]

theorem countPrimary_demoteAll (l : List SuggestedAction) :
    countPrimary (demoteAllPrimary l) = 0 := by
  induction l with
  | nil => rfl
  | cons a rest ih =>
      have hstep : demoteAllPrimary (a :: rest) =
          demotePrimary a :: demoteAllPrimary rest := rfl
      rw [hstep, countPrimary_cons, ih]
      unfold demotePrimary
      by_cases h : a.action_type = ActionType.PRIMARY <;> simp [h]

theorem promoteFirstMax_count (l : List SuggestedAction)
    (h0 : countPrimary l = 0) (hne : l ≠ []) :
    countPrimary (promoteFirstMax l) = 1 := by
  induction l with
  | nil => exact absurd rfl hne
  | cons a rest ih =>
      rw [countPrimary_cons] at h0
      have ha : ¬ a.action_type = ActionType.PRIMARY := by
        intro hp
        rw [if_pos hp] at h0
        omega
      have hrest : countPrimary rest = 0 := by
        rw [if_neg ha] at h0
        omega
      unfold promoteFirstMax
      split
      · rw [countPrimary_cons, hrest]
        simp
      · rename_i hall
        have hrne : rest ≠ [] := by
          intro hnil
          rw [hnil] at hall
          simp at hall
        rw [countPrimary_cons, if_neg ha, ih hrest hrne]

theorem keepFirstMaxPrimary_count (l : List SuggestedAction)
    (h1 : 1 ≤ countPrimary l) :
    countPrimary (keepFirstMaxPrimary l) = 1 := by
  induction l with
  | nil => simp [countPrimary] at h1
  | cons a rest ih =>
      unfold keepFirstMaxPrimary
      split
      · rename_i hcond
        rw [countPrimary_cons, if_pos hcond.1, countPrimary_demoteAll]
      · rename_i hcond
        have hd : ¬ (demotePrimary a).action_type = ActionType.PRIMARY := by
          unfold demotePrimary
          by_cases h : a.action_type = ActionType.PRIMARY <;> simp [h]
        have hrest : 1 ≤ countPrimary rest := by
          rcases not_and_or.mp hcond with hna | hnall
          · rw [countPrimary_cons, if_neg hna] at h1
            omega
          · have : ∃ b ∈ rest.filter
                (fun b => b.action_type = ActionType.PRIMARY),
                ¬ b.confidence ≤ a.confidence := by
              by_contra hno
              push_neg at hno
              exact hnall (List.all_eq_true.mpr
                (fun b hb => decide_eq_true (hno b hb)))
            obtain ⟨b, hb, -⟩ := this
            have hbp : b ∈ rest ∧ b.action_type = ActionType.PRIMARY := by
              have := List.mem_filter.mp hb
              exact ⟨this.1, of_decide_eq_true this.2⟩
            unfold countPrimary
            have : b ∈ rest.filter
                (fun x => x.action_type = ActionType.PRIMARY) := hb
            have hlen := List.length_pos.mpr (List.ne_nil_of_mem this)
            omega
        rw [countPrimary_cons, if_neg hd, ih hrest]

/-- C1 (spec-modelled): after validation of a non-empty
`suggested_actions` list, exactly one action carries
`action_type = PRIMARY`: a zero-PRIMARY list has its highest-confidence
action promoted, a multi-PRIMARY list keeps only its
highest-confidence PRIMARY, and a single-PRIMARY list is unchanged. -/
theorem enforceSinglePrimary_unique (l : List SuggestedAction)
    (hne : l ≠ []) : countPrimary (enforceSinglePrimary l) = 1 := by
  unfold enforceSinglePrimary
  by_cases h0 : countPrimary l = 0
  · rw [if_pos h0]
    exact promoteFirstMax_count l h0 hne
  · rw [if_neg h0]
    by_cases h1 : countPrimary l = 1
    · rw [if_pos h1]
      exact h1
    · rw [if_neg h1]
      exact keepFirstMaxPrimary_count l (by omega)

/-- Witness for C1 at the spec's Scenario B list: two PRIMARY entries
with confidences 90 and 95; after enforcement exactly one PRIMARY
remains (the higher-confidence `create_contact`). -/
theorem enforceSinglePrimary_unique_witness :
    ([(⟨"create_invoice", ActionType.PRIMARY, 90, false⟩ : SuggestedAction),
      ⟨"create_contact", ActionType.PRIMARY, 95, false⟩] ≠ []) ∧
      countPrimary (enforceSinglePrimary
        [⟨"create_invoice", ActionType.PRIMARY, 90, false⟩,
         ⟨"create_contact", ActionType.PRIMARY, 95, false⟩]) = 1 :=
  ⟨by decide,
    enforceSinglePrimary_unique
      [⟨"create_invoice", ActionType.PRIMARY, 90, false⟩,
       ⟨"create_contact", ActionType.PRIMARY, 95, false⟩] (by decide)⟩

end Zopilot
